import Mathlib

/-!
Shallow embedding of `client/rpc-servers/src/lib.rs` (Substrate RPC servers):
configuration resolution, host allow-list construction, RPC method registry
enrichment, and the server bootstrap path.

Machine integers are modelled as `Nat` with explicit bounds: `usize` is the
64-bit machine word, `usize::saturating_mul` saturates at `2^64 - 1`, and the
Rust `as u32` narrowing cast is reduction modulo `2^32`.
-/

namespace RpcServers

/-- `const MEGABYTE: usize = 1024 * 1024;` -/
def MEGABYTE : Nat := 1024 * 1024

/-- `pub const RPC_MAX_PAYLOAD_DEFAULT: usize = 15 * MEGABYTE;` -/
def RPC_MAX_PAYLOAD_DEFAULT : Nat := 15 * MEGABYTE

/-- `const WS_MAX_CONNECTIONS: usize = 100;` -/
def WS_MAX_CONNECTIONS : Nat := 100

/-- `const WS_MAX_SUBS_PER_CONN: usize = 1024;` -/
def WS_MAX_SUBS_PER_CONN : Nat := 1024

/-- Largest value of the 64-bit `usize` machine word. -/
def USIZE_MAX : Nat := 2 ^ 64 - 1

/-- Rust `usize::saturating_mul` on the 64-bit machine word. -/
def saturatingMul (a b : Nat) : Nat := min (a * b) USIZE_MAX

/-- The Rust `as u32` narrowing cast: keeps the low 32 bits (truncation
modulo `2^32`), it does not clamp. -/
def asU32 (a : Nat) : Nat := a % 2 ^ 32

/-- `pub struct Config` — the four optional ceilings, each a `usize`. -/
structure Config where
  max_connections : Option Nat
  max_subs_per_conn : Option Nat
  max_payload_in_mb : Option Nat
  max_payload_out_mb : Option Nat

/-- `fn payload_size_or_default(size_mb: Option<usize>) -> usize`:
`size_mb.map_or(RPC_MAX_PAYLOAD_DEFAULT, |mb| mb.saturating_mul(MEGABYTE))`. -/
def payload_size_or_default (size_mb : Option Nat) : Nat :=
  match size_mb with
  | none => RPC_MAX_PAYLOAD_DEFAULT
  | some mb => saturatingMul mb MEGABYTE

/-- `Config::deconstruct`: resolves the four optional fields and narrows each
with `as u32`.  Returns `(max_payload_in_mb, max_payload_out_mb, max_conns,
max_subs_per_conn)` in the source's tuple order (the first two components are
byte counts despite the source's variable names). -/
def Config.deconstruct (c : Config) : Nat × Nat × Nat × Nat :=
  let max_conns := asU32 (c.max_connections.getD WS_MAX_CONNECTIONS)
  let max_payload_in_mb := asU32 (payload_size_or_default c.max_payload_in_mb)
  let max_payload_out_mb := asU32 (payload_size_or_default c.max_payload_out_mb)
  let max_subs_per_conn := asU32 (c.max_subs_per_conn.getD WS_MAX_SUBS_PER_CONN)
  (max_payload_in_mb, max_payload_out_mb, max_conns, max_subs_per_conn)

/-- C2: resolving the all-absent configuration yields exactly
15 MiB inbound, 15 MiB outbound, 100 connections, 1024 subscriptions
per connection. -/
theorem deconstruct_all_absent_defaults :
    (Config.mk none none none none).deconstruct = (15728640, 15728640, 100, 1024) := by
  decide

/-- C10: payload-size resolution substitutes the 15 MiB default exactly when
the field is absent; a present mebibyte count `m` resolves to `m * 1048576`
saturated at the 64-bit machine word (exact whenever the product fits the
word); a present 0 resolves to 0 bytes, not to the default. -/
theorem payload_size_present_saturating :
    payload_size_or_default none = 15 * 1048576 ∧
    (∀ m, m * 1048576 < 2 ^ 64 → payload_size_or_default (some m) = m * 1048576) ∧
    (∀ m, 2 ^ 64 ≤ m * 1048576 → payload_size_or_default (some m) = 2 ^ 64 - 1) ∧
    payload_size_or_default (some 0) = 0 := by
  refine ⟨by decide, fun m h => ?_, fun m h => ?_, by decide⟩
  · simp only [payload_size_or_default, saturatingMul, MEGABYTE, USIZE_MAX]
    omega
  · simp only [payload_size_or_default, saturatingMul, MEGABYTE, USIZE_MAX]
    omega

/-- Witness for C10 at concrete inputs. -/
theorem payload_size_present_saturating_witness :
    payload_size_or_default (some 3) = 3 * 1048576 ∧
    payload_size_or_default (some (2 ^ 50)) = 2 ^ 64 - 1 :=
  ⟨payload_size_present_saturating.2.1 3 (by norm_num),
   payload_size_present_saturating.2.2.1 (2 ^ 50) (by norm_num)⟩

/-- C1 counterexample: a present inbound payload of 4096 MiB resolves to
`4096 * 1048576 = 2^32` bytes, which exceeds `u32::MAX = 4294967295`; the
`as u32` narrowing in `Config::deconstruct` wraps it to 0 instead of
saturating at `u32::MAX`. -/
theorem deconstruct_wraps_at_4096_mb :
    (Config.mk none none (some 4096) none).deconstruct = (0, 15728640, 100, 1024) ∧
    4294967295 < 4096 * 1048576 ∧
    (Config.mk none none (some 4096) none).deconstruct.1 ≠ 4294967295 := by
  refine ⟨by decide, by norm_num, by decide⟩

/-- C1 amended: `Config::deconstruct` produces four values each below `2^32`;
a present payload field of `m` MiB resolves to `m * 1048576` saturated at the
64-bit word and then truncated modulo `2^32` by the `as u32` cast — exact when
the byte count fits in 32 bits, wrapped (not clamped) when it does not. -/
theorem deconstruct_truncates_mod_u32 (c : Config) :
    (c.deconstruct.1 < 2 ^ 32 ∧ c.deconstruct.2.1 < 2 ^ 32 ∧
      c.deconstruct.2.2.1 < 2 ^ 32 ∧ c.deconstruct.2.2.2 < 2 ^ 32) ∧
    (∀ m, c.max_payload_in_mb = some m →
      c.deconstruct.1 = min (m * 1048576) (2 ^ 64 - 1) % 2 ^ 32) ∧
    (∀ m, c.max_payload_out_mb = some m →
      c.deconstruct.2.1 = min (m * 1048576) (2 ^ 64 - 1) % 2 ^ 32) ∧
    (∀ m, c.max_payload_in_mb = some m → m * 1048576 < 2 ^ 32 →
      c.deconstruct.1 = m * 1048576) := by
  refine ⟨⟨?_, ?_, ?_, ?_⟩, fun m hm => ?_, fun m hm => ?_, fun m hm hfit => ?_⟩
  · exact Nat.mod_lt _ (by norm_num)
  · exact Nat.mod_lt _ (by norm_num)
  · exact Nat.mod_lt _ (by norm_num)
  · exact Nat.mod_lt _ (by norm_num)
  · simp only [Config.deconstruct, hm, payload_size_or_default, saturatingMul, asU32,
      MEGABYTE, USIZE_MAX]
  · simp only [Config.deconstruct, hm, payload_size_or_default, saturatingMul, asU32,
      MEGABYTE, USIZE_MAX]
  · simp only [Config.deconstruct, hm, payload_size_or_default, saturatingMul, asU32,
      MEGABYTE, USIZE_MAX]
    omega

/-- Witness for the amended C1 at the wrapping input 4096 MiB. -/
theorem deconstruct_truncates_mod_u32_witness :
    (Config.mk none none (some 4096) none).deconstruct.1 =
      min (4096 * 1048576) (2 ^ 64 - 1) % 2 ^ 32 :=
  (deconstruct_truncates_mod_u32 (Config.mk none none (some 4096) none)).2.1 4096 rfl

/-- `std::net::SocketAddr`: an IP component (kept abstract as its textual
form) and a 16-bit port. -/
structure SocketAddr where
  ip : String
  port : Nat

/-- `jsonrpsee::server::AllowHosts`. -/
inductive AllowHosts where
  | Any : AllowHosts
  | Only : List String → AllowHosts

/-- The vector built by the loop in `format_allowed_hosts`: for each address,
push `localhost:<port>` then `127.0.0.1:<port>`. -/
def hostEntries : List SocketAddr → List String
  | [] => []
  | a :: rest =>
    ("localhost:" ++ toString a.port) :: ("127.0.0.1:" ++ toString a.port) :: hostEntries rest

/-- `fn format_allowed_hosts(addrs: &[SocketAddr]) -> AllowHosts`. -/
def format_allowed_hosts (addrs : List SocketAddr) : AllowHosts :=
  AllowHosts.Only (hostEntries addrs)

lemma mem_hostEntries (addrs : List SocketAddr) (s : String) :
    s ∈ hostEntries addrs ↔
      ∃ a ∈ addrs, s = "localhost:" ++ toString a.port ∨ s = "127.0.0.1:" ++ toString a.port := by
  induction addrs with
  | nil => simp [hostEntries]
  | cons a rest ih =>
    simp only [hostEntries, List.mem_cons, ih]
    constructor
    · rintro (h | h | ⟨b, hb, hs⟩)
      · exact ⟨a, Or.inl rfl, Or.inl h⟩
      · exact ⟨a, Or.inl rfl, Or.inr h⟩
      · exact ⟨b, Or.inr hb, hs⟩
    · rintro ⟨b, (rfl | hb), hs⟩
      · rcases hs with h | h
        · exact Or.inl h
        · exact Or.inr (Or.inl h)
      · exact Or.inr (Or.inr ⟨b, hb, hs⟩)

lemma hostEntries_eq_of_ports_eq :
    ∀ (addrs addrs2 : List SocketAddr),
      addrs.map SocketAddr.port = addrs2.map SocketAddr.port →
      hostEntries addrs = hostEntries addrs2
  | [], [], _ => rfl
  | [], _ :: _, h => by simp at h
  | _ :: _, [], h => by simp at h
  | a :: rest, b :: rest2, h => by
    simp only [List.map_cons, List.cons.injEq] at h
    simp only [hostEntries, h.1, hostEntries_eq_of_ports_eq rest rest2 h.2]

/-- C3: for every non-empty address list, the built host allow-list holds
exactly the strings `localhost:<p>` and `127.0.0.1:<p>` for the ports `p` of
the addresses and nothing else, and it depends only on the ports, never on
the IP components. -/
theorem format_allowed_hosts_exact (addrs : List SocketAddr) (hne : addrs ≠ [])
    (hosts : List String) (hh : format_allowed_hosts addrs = AllowHosts.Only hosts) :
    (∀ s, s ∈ hosts ↔
      ∃ a ∈ addrs, s = "localhost:" ++ toString a.port ∨ s = "127.0.0.1:" ++ toString a.port) ∧
    (∀ addrs2 : List SocketAddr, addrs.map SocketAddr.port = addrs2.map SocketAddr.port →
      format_allowed_hosts addrs2 = AllowHosts.Only hosts) := by
  have hlist : hosts = hostEntries addrs := by
    cases hh
    rfl
  subst hlist
  refine ⟨fun s => mem_hostEntries addrs s, fun addrs2 hp => ?_⟩
  simp only [format_allowed_hosts, hostEntries_eq_of_ports_eq addrs addrs2 hp]

/-- Witness for C3 on two concrete bind addresses with different IPs. -/
theorem format_allowed_hosts_exact_witness :
    ([SocketAddr.mk "0.0.0.0" 9933, SocketAddr.mk "192.168.0.1" 9944] ≠
      ([] : List SocketAddr)) ∧
    format_allowed_hosts [SocketAddr.mk "0.0.0.0" 9933, SocketAddr.mk "192.168.0.1" 9944] =
      AllowHosts.Only
        ["localhost:9933", "127.0.0.1:9933", "localhost:9944", "127.0.0.1:9944"] ∧
    ((∀ s, s ∈ ["localhost:9933", "127.0.0.1:9933", "localhost:9944", "127.0.0.1:9944"] ↔
      ∃ a ∈ [SocketAddr.mk "0.0.0.0" 9933, SocketAddr.mk "192.168.0.1" 9944],
        s = "localhost:" ++ toString a.port ∨ s = "127.0.0.1:" ++ toString a.port) ∧
    (∀ addrs2 : List SocketAddr,
      [SocketAddr.mk "0.0.0.0" 9933, SocketAddr.mk "192.168.0.1" 9944].map SocketAddr.port =
        addrs2.map SocketAddr.port →
      format_allowed_hosts addrs2 =
        AllowHosts.Only
          ["localhost:9933", "127.0.0.1:9933", "localhost:9944", "127.0.0.1:9944"])) :=
  ⟨by simp, rfl,
    format_allowed_hosts_exact _ (by simp) _ rfl⟩

/-- A JSON value, enough for the introspection method's result. -/
inductive Json where
  | str : String → Json
  | arr : List Json → Json
  | obj : List (String × Json) → Json

/-- An RPC method handler: parameters in, result out.  Caller-supplied
handlers are arbitrary functions of this type. -/
def Handler : Type := Json → Json

/-- A concrete stand-in for an arbitrary caller-supplied handler. -/
def idHandler : Handler := fun p => p

/-- `jsonrpsee::RpcModule`: a registry mapping unique method names to
handlers, kept in registration order. -/
structure RpcModule where
  methods : List (String × Handler)

/-- `RpcModule::method_names`. -/
def RpcModule.method_names (m : RpcModule) : List String :=
  m.methods.map Prod.fst

/-- Modelled from the `jsonrpsee` dependency: `RpcModule::register_method`
returns a recoverable error on a method-name collision and otherwise adds
the method. -/
def RpcModule.register_method (m : RpcModule) (name : String) (h : Handler) :
    Except String RpcModule :=
  if name ∈ m.method_names then Except.error ("method already registered")
  else Except.ok (RpcModule.mk (m.methods ++ [(name, h)]))

/-- Dispatch a call: look up the handler by name and apply it. -/
def RpcModule.callMethod (m : RpcModule) (name : String) (params : Json) : Option Json :=
  (m.methods.lookup name).map (fun h => h params)

/-- `available_methods.sort_unstable()`: sort lexicographically.  For
`String`'s linear order the sorted permutation is unique, so insertion sort
models any correct sort.  The comparison is by the underlying character
list, which coincides with `String`'s order (`String.le_iff_toList_le`). -/
def sortStrings (l : List String) : List String :=
  l.insertionSort (fun a b => a.data ≤ b.data)

instance : IsTotal String (fun a b : String => a.data ≤ b.data) :=
  ⟨fun a b => le_total a.data b.data⟩

instance : IsTrans String (fun a b : String => a.data ≤ b.data) :=
  ⟨fun _ _ _ h1 h2 => le_trans h1 h2⟩

instance : IsAntisymm String (fun a b : String => a.data ≤ b.data) :=
  ⟨fun a b h1 h2 => by
    cases a
    cases b
    simp only at h1 h2
    exact congrArg String.mk (le_antisymm h1 h2)⟩

/-- The closure registered under `rpc_methods`: ignores its parameters and
returns `{"methods": <snapshot>}`. -/
def introspectionHandler (names : List String) : Handler :=
  fun _ => Json.obj [("methods", Json.arr (names.map Json.str))]

/-- `fn build_rpc_api(mut rpc_api: RpcModule) -> RpcModule`: snapshot and
sort the method names, then register `rpc_methods`.  The source calls
`.expect(..)` on the registration result, so a collision is abnormal
termination (a panic), modelled as `none`; `some` is normal return. -/
def build_rpc_api (rpc_api : RpcModule) : Option RpcModule :=
  let available_methods := sortStrings rpc_api.method_names
  match rpc_api.register_method "rpc_methods" (introspectionHandler available_methods) with
  | Except.ok m => some m
  | Except.error _ => none

/-- The JSON result of invoking `rpc_methods` on the enriched registry
(`none` when enrichment panicked or the method is absent). -/
def enrichedIntrospection (reg : RpcModule) : Option Json :=
  (build_rpc_api reg).bind (fun m => m.callMethod "rpc_methods" (Json.arr []))

lemma methods_mk (l : List (String × Handler)) : (RpcModule.mk l).methods = l := rfl

lemma lookup_append_of_not_mem_keys {β : Type} (k : String) (l1 l2 : List (String × β))
    (h : k ∉ l1.map Prod.fst) : (l1 ++ l2).lookup k = l2.lookup k := by
  induction l1 with
  | nil => rfl
  | cons p rest ih =>
    obtain ⟨k1, b1⟩ := p
    simp only [List.map_cons, List.mem_cons, not_or] at h
    rw [List.cons_append]
    simp only [List.lookup_cons, beq_false_of_ne h.1]
    exact ih h.2

lemma build_rpc_api_eq (reg : RpcModule) (h : "rpc_methods" ∉ reg.method_names) :
    build_rpc_api reg =
      some (RpcModule.mk (reg.methods ++
        [("rpc_methods", introspectionHandler (sortStrings reg.method_names))])) := by
  simp only [build_rpc_api, RpcModule.register_method, if_neg h]

lemma enrichedIntrospection_eq (reg : RpcModule) (h : "rpc_methods" ∉ reg.method_names) :
    enrichedIntrospection reg =
      some (Json.obj [("methods", Json.arr ((sortStrings reg.method_names).map Json.str))]) := by
  rw [enrichedIntrospection, build_rpc_api_eq reg h]
  simp only [Option.some_bind, RpcModule.callMethod, methods_mk,
    lookup_append_of_not_mem_keys "rpc_methods" reg.methods _ h, List.lookup_cons,
    beq_self_eq_true, Option.map_some', introspectionHandler]

lemma sortStrings_perm (l : List String) : (sortStrings l).Perm l :=
  List.perm_insertionSort _ l

lemma sortStrings_sorted_data (l : List String) :
    (sortStrings l).Sorted (fun a b : String => a.data ≤ b.data) :=
  List.sorted_insertionSort _ l

lemma sortStrings_sorted (l : List String) : (sortStrings l).Sorted (· ≤ ·) :=
  (sortStrings_sorted_data l).imp (fun h => String.le_iff_toList_le.mpr h)

lemma sortStrings_eq_of_perm {l1 l2 : List String} (h : l1.Perm l2) :
    sortStrings l1 = sortStrings l2 :=
  List.eq_of_perm_of_sorted
    ((sortStrings_perm l1).trans (h.trans (sortStrings_perm l2).symm))
    (sortStrings_sorted_data l1) (sortStrings_sorted_data l2)

/-- C4: enriching a registry without `rpc_methods` registers a method
`rpc_methods` whose result is an object with the single field `methods`
holding the lexicographically sorted list of the names present at enrichment
time, and the result is the same for any registration order of the same
name set. -/
theorem rpc_methods_result_sorted (reg : RpcModule)
    (h : "rpc_methods" ∉ reg.method_names) :
    (∃ ms : List String, ms.Perm reg.method_names ∧ ms.Sorted (· ≤ ·) ∧
      enrichedIntrospection reg =
        some (Json.obj [("methods", Json.arr (ms.map Json.str))])) ∧
    (∀ reg2 : RpcModule, reg2.method_names.Perm reg.method_names →
      enrichedIntrospection reg2 = enrichedIntrospection reg) := by
  refine ⟨⟨sortStrings reg.method_names, sortStrings_perm _, sortStrings_sorted _,
    enrichedIntrospection_eq reg h⟩, fun reg2 hp => ?_⟩
  have h2 : "rpc_methods" ∉ reg2.method_names := fun hmem => h (hp.mem_iff.mp hmem)
  rw [enrichedIntrospection_eq reg2 h2, enrichedIntrospection_eq reg h,
    sortStrings_eq_of_perm hp]

/-- Witness for C4: the spec's example registry with methods foo, bar, baz
(registered in that order) answers with the lexicographic list. -/
theorem rpc_methods_result_sorted_witness :
    ("rpc_methods" ∉
      (RpcModule.mk [("foo", idHandler), ("bar", idHandler),
        ("baz", idHandler)]).method_names) ∧
    ((∃ ms : List String,
        ms.Perm (RpcModule.mk [("foo", idHandler), ("bar", idHandler),
          ("baz", idHandler)]).method_names ∧
        ms.Sorted (· ≤ ·) ∧
        enrichedIntrospection (RpcModule.mk [("foo", idHandler), ("bar", idHandler),
          ("baz", idHandler)]) =
          some (Json.obj [("methods", Json.arr (ms.map Json.str))])) ∧
    (∀ reg2 : RpcModule,
      reg2.method_names.Perm (RpcModule.mk [("foo", idHandler), ("bar", idHandler),
        ("baz", idHandler)]).method_names →
      enrichedIntrospection reg2 =
        enrichedIntrospection (RpcModule.mk [("foo", idHandler), ("bar", idHandler),
          ("baz", idHandler)]))) ∧
    enrichedIntrospection (RpcModule.mk [("foo", idHandler), ("bar", idHandler),
      ("baz", idHandler)]) =
      some (Json.obj [("methods", Json.arr [Json.str "bar", Json.str "baz", Json.str "foo"])]) :=
  ⟨by decide, rpc_methods_result_sorted _ (by decide), by rfl⟩

/-- C5: enriching a registry that already contains a method named
`rpc_methods` panics (abnormal termination, modelled as `none`): no module
is produced, so the existing method is never silently overwritten, and no
recoverable error value is returned. -/
theorem build_rpc_api_collision_panics (reg : RpcModule)
    (h : "rpc_methods" ∈ reg.method_names) :
    build_rpc_api reg = none := by
  simp only [build_rpc_api, RpcModule.register_method, if_pos h]

/-- Witness for C5 on a registry already holding `rpc_methods`. -/
theorem build_rpc_api_collision_panics_witness :
    ("rpc_methods" ∈
      (RpcModule.mk [("rpc_methods", idHandler)]).method_names) ∧
    build_rpc_api (RpcModule.mk [("rpc_methods", idHandler)]) = none :=
  ⟨by decide, build_rpc_api_collision_panics _ (by decide)⟩

/-- C8: enrichment of a collision-free registry performs exactly one
mutation — the enriched registry is the original method list unchanged with
the single new method `rpc_methods` appended; nothing is removed or
replaced. -/
theorem build_rpc_api_frame (reg : RpcModule)
    (h : "rpc_methods" ∉ reg.method_names) :
    ∃ f : Handler, build_rpc_api reg =
      some (RpcModule.mk (reg.methods ++ [("rpc_methods", f)])) :=
  ⟨introspectionHandler (sortStrings reg.method_names), build_rpc_api_eq reg h⟩

/-- Witness for C8 on a concrete registry. -/
theorem build_rpc_api_frame_witness :
    ("rpc_methods" ∉
      (RpcModule.mk [("system_health", idHandler)]).method_names) ∧
    ∃ f : Handler, build_rpc_api (RpcModule.mk [("system_health", idHandler)]) =
      some (RpcModule.mk ([("system_health", idHandler)] ++ [("rpc_methods", f)])) :=
  ⟨by decide, build_rpc_api_frame _ (by decide)⟩

/-- C9: the snapshot served by `rpc_methods` is captured strictly before the
introspection method is registered, so the returned list never contains the
name `rpc_methods` itself. -/
theorem rpc_methods_result_excludes_self (reg : RpcModule)
    (h : "rpc_methods" ∉ reg.method_names) :
    enrichedIntrospection reg =
      some (Json.obj [("methods", Json.arr ((sortStrings reg.method_names).map Json.str))]) ∧
    "rpc_methods" ∉ sortStrings reg.method_names := by
  refine ⟨enrichedIntrospection_eq reg h, fun hmem => ?_⟩
  exact h ((sortStrings_perm reg.method_names).mem_iff.mp hmem)

/-- Witness for C9 on a concrete registry. -/
theorem rpc_methods_result_excludes_self_witness :
    ("rpc_methods" ∉
      (RpcModule.mk [("system_health", idHandler)]).method_names) ∧
    (enrichedIntrospection (RpcModule.mk [("system_health", idHandler)]) =
      some (Json.obj [("methods", Json.arr
        ((sortStrings (RpcModule.mk [("system_health", idHandler)]).method_names).map
          Json.str))]) ∧
    "rpc_methods" ∉
      sortStrings (RpcModule.mk [("system_health", idHandler)]).method_names) :=
  ⟨by decide, rpc_methods_result_excludes_self _ (by decide)⟩

/-- Modelled from the `http` dependency: a byte is legal inside a header
value iff it is horizontal tab or lies in `32..=255` excluding 127.  Stated
on characters: a character below 128 occupies one UTF-8 byte equal to its
code point, and every byte of a multi-byte character is at least 128, hence
legal, so the character-level check agrees with the byte-level one. -/
def validHeaderChar (c : Char) : Bool :=
  c.toNat == 9 || (32 ≤ c.toNat && c.toNat != 127)

/-- Modelled from the `http` dependency: `HeaderValue::from_str` succeeds
exactly when every byte of the string is a legal header-value byte, and the
parsed value carries the same text. -/
def headerValueFromStr (s : String) : Option String :=
  if s.data.all validHeaderChar then some s else none

/-- `tower_http::cors::AllowOrigin`: either `Any` or an explicit list. -/
inductive AllowOrigin where
  | any : AllowOrigin
  | list : List String → AllowOrigin

/-- Modelled from the `tower_http` dependency: `AllowOrigin::list` accepts a
request origin exactly when it equals one of the listed values; `Any` accepts
every origin. -/
def AllowOrigin.allows : AllowOrigin → String → Bool
  | AllowOrigin.any, _ => true
  | AllowOrigin.list l, o => l.contains o

/-- The `for origin in cors` loop of `start_server`: parse each origin with
`HeaderValue::from_str`, stopping at the first failure (the `?` operator). -/
def parseOrigins : List String → Except String (List String)
  | [] => Except.ok []
  | o :: rest =>
    match headerValueFromStr o with
    | none => Except.error o
    | some v =>
      match parseOrigins rest with
      | Except.error e => Except.error e
      | Except.ok vs => Except.ok (v :: vs)

/-- The CORS block of `start_server`: an explicit list yields
`AllowOrigin::list` of the parsed values, absence yields `Any`. -/
def corsFromConfig : Option (List String) → Except String AllowOrigin
  | some origins =>
    match parseOrigins origins with
    | Except.error e => Except.error e
    | Except.ok vs => Except.ok (AllowOrigin.list vs)
  | none => Except.ok AllowOrigin.any

/-- Modelled from the `jsonrpsee` dependency: `ProxyGetRequestLayer::new`
fails iff the path does not start with a slash; `start_server` calls it with
the fixed arguments `"/health"` and `"system_health"`. -/
def proxyGetRequestLayerNew (path rpcMethod : String) : Except String Unit :=
  if path.data.head? = some '/' then Except.ok () else Except.error (path ++ rpcMethod)

/-- The subscription-id provider: the caller's strategy, or the default
`RandomStringIdProvider::new(16)`. -/
inductive IdProvider where
  | randomString : Nat → IdProvider
  | custom : IdProvider

/-- The observable outcome of a successful `start_server`: the settings the
running server was built with. -/
structure ServerStarted where
  max_payload_in : Nat
  max_payload_out : Nat
  max_connections : Nat
  max_subs_per_conn : Nat
  corsPolicy : AllowOrigin
  allow_hosts : AllowHosts
  api : RpcModule
  provider : IdProvider

/-- `pub async fn start_server`: resolve the config, build the CORS layer
(first fallible step, stops startup on a malformed origin), the health
proxy layer, the host allow-list, the id provider, enrich the registry
(`build_rpc_api`, whose collision panic propagates as `none`), then bind.
Socket binding is external I/O, abstracted by the `bindOk` oracle; `some
(Except.error e)` is an error returned to the caller, `some (Except.ok h)`
a running server. -/
def start_server (addrs : List SocketAddr) (cors : Option (List String))
    (config : Config) (rpc_api : RpcModule) (id_provider : Option IdProvider)
    (bindOk : Bool) : Option (Except String ServerStarted) :=
  let limits := config.deconstruct
  match corsFromConfig cors with
  | Except.error e => some (Except.error e)
  | Except.ok c =>
    match proxyGetRequestLayerNew "/health" "system_health" with
    | Except.error e => some (Except.error e)
    | Except.ok _ =>
      let allow_hosts := format_allowed_hosts addrs
      let provider := id_provider.getD (IdProvider.randomString 16)
      match build_rpc_api rpc_api with
      | none => none
      | some api =>
        if bindOk then
          some (Except.ok
            ⟨limits.1, limits.2.1, limits.2.2.1, limits.2.2.2, c, allow_hosts, api, provider⟩)
        else some (Except.error ("could not bind"))

lemma parseOrigins_error_of_invalid (origins : List String)
    (h : ∃ o ∈ origins, headerValueFromStr o = none) :
    ∃ e, parseOrigins origins = Except.error e := by
  induction origins with
  | nil => simp at h
  | cons o rest ih =>
    by_cases ho : headerValueFromStr o = none
    · exact ⟨o, by simp only [parseOrigins, ho]⟩
    · obtain ⟨v, hv⟩ := Option.ne_none_iff_exists'.mp ho
      have hrest : ∃ x ∈ rest, headerValueFromStr x = none := by
        obtain ⟨x, hx, hxn⟩ := h
        rcases List.mem_cons.mp hx with h1 | h1
        · exact absurd (h1 ▸ hxn) ho
        · exact ⟨x, h1, hxn⟩
      obtain ⟨e, he⟩ := ih hrest
      exact ⟨e, by simp only [parseOrigins, hv, he]⟩

lemma parseOrigins_ok_eq (origins vs : List String)
    (h : parseOrigins origins = Except.ok vs) : vs = origins := by
  induction origins generalizing vs with
  | nil =>
    simp only [parseOrigins, Except.ok.injEq] at h
    exact h.symm
  | cons o rest ih =>
    simp only [parseOrigins] at h
    rcases hvo : headerValueFromStr o with _ | v
    · rw [hvo] at h
      exact absurd h (by simp)
    · rw [hvo] at h
      rcases hrest : parseOrigins rest with e | ws
      · rw [hrest] at h
        exact absurd h (by simp)
      · rw [hrest] at h
        have hv : v = o := by
          unfold headerValueFromStr at hvo
          by_cases hall : o.data.all validHeaderChar
          · rw [if_pos hall] at hvo
            exact (Option.some.injEq _ _ ▸ hvo).symm
          · rw [if_neg hall] at hvo
            exact absurd hvo (by simp)
        simp only [Except.ok.injEq] at h
        rw [← h, hv, ih ws hrest]

/-- C6: if any configured origin string is not a valid header value, the
bootstrap returns an error result to the caller — no server handle is
produced — for every address list, configuration, registry, id provider
and bind outcome. -/
theorem start_server_invalid_origin_errors (addrs : List SocketAddr)
    (origins : List String) (config : Config) (rpc_api : RpcModule)
    (id_provider : Option IdProvider) (bindOk : Bool)
    (h : ∃ o ∈ origins, headerValueFromStr o = none) :
    ∃ e, start_server addrs (some origins) config rpc_api id_provider bindOk =
      some (Except.error e) := by
  obtain ⟨e, he⟩ := parseOrigins_error_of_invalid origins h
  exact ⟨e, by simp only [start_server, corsFromConfig, he]⟩

/-- Witness for C6: an origin containing a line feed aborts startup. -/
theorem start_server_invalid_origin_errors_witness :
    (∃ o ∈ ["https://a.example", "bad\norigin"], headerValueFromStr o = none) ∧
    ∃ e, start_server [SocketAddr.mk "127.0.0.1" 9933]
        (some ["https://a.example", "bad\norigin"])
        (Config.mk none none none none)
        (RpcModule.mk [("system_health", idHandler)]) none true =
      some (Except.error e) :=
  ⟨by decide, start_server_invalid_origin_errors _ _ _ _ _ _ (by decide)⟩

/-- C7: a successful bootstrap configures the cross-origin layer to allow any
origin exactly when no explicit list was supplied, and to allow exactly the
supplied origin strings (exact match) when a list was supplied. -/
theorem start_server_cors_policy (addrs : List SocketAddr)
    (cors : Option (List String)) (config : Config) (rpc_api : RpcModule)
    (id_provider : Option IdProvider) (bindOk : Bool) (handle : ServerStarted)
    (h : start_server addrs cors config rpc_api id_provider bindOk =
      some (Except.ok handle)) :
    (cors = none →
      handle.corsPolicy = AllowOrigin.any ∧ ∀ o, handle.corsPolicy.allows o = true) ∧
    (∀ origins, cors = some origins →
      handle.corsPolicy = AllowOrigin.list origins ∧
      ∀ o, (handle.corsPolicy.allows o = true ↔ o ∈ origins)) := by
  have hproxy : proxyGetRequestLayerNew "/health" "system_health" = Except.ok () := rfl
  have hcors : ∃ c, corsFromConfig cors = Except.ok c ∧ handle.corsPolicy = c := by
    rcases hc : corsFromConfig cors with e | c
    · simp only [start_server, hc] at h
      exact absurd h (by simp)
    · refine ⟨c, rfl, ?_⟩
      simp only [start_server, hc, hproxy] at h
      rcases hb : build_rpc_api rpc_api with _ | api
      · simp only [hb] at h
        exact absurd h (by simp)
      · simp only [hb] at h
        rcases bindOk with _ | _
        · simp at h
        · simp only [if_true, Option.some.injEq, Except.ok.injEq] at h
          rw [← h]
  obtain ⟨c, hc, hpol⟩ := hcors
  constructor
  · rintro rfl
    simp only [corsFromConfig, Except.ok.injEq] at hc
    rw [hpol, ← hc]
    exact ⟨rfl, fun o => rfl⟩
  · rintro origins rfl
    simp only [corsFromConfig] at hc
    rcases hp : parseOrigins origins with e | vs
    · rw [hp] at hc
      exact absurd hc (by simp)
    · rw [hp] at hc
      simp only [Except.ok.injEq] at hc
      have hvs : vs = origins := parseOrigins_ok_eq origins vs hp
      rw [hpol, ← hc, hvs]
      refine ⟨rfl, fun o => ?_⟩
      simp [AllowOrigin.allows, List.contains_iff_exists_mem_beq, beq_iff_eq]

/-- Witness for C7: a concrete successful bootstrap with an explicit origin
list; by the theorem, `https://b.example` is not allowed while
`https://a.example` is. -/
theorem start_server_cors_policy_witness :
    (start_server [SocketAddr.mk "127.0.0.1" 9933] (some ["https://a.example"])
        (Config.mk none none none none)
        (RpcModule.mk [("system_health", idHandler)]) none true =
      some (Except.ok
        ⟨15728640, 15728640, 100, 1024, AllowOrigin.list ["https://a.example"],
          AllowHosts.Only ["localhost:9933", "127.0.0.1:9933"],
          RpcModule.mk [("system_health", idHandler),
            ("rpc_methods", introspectionHandler ["system_health"])],
          IdProvider.randomString 16⟩)) ∧
    (∀ o, ((AllowOrigin.list ["https://a.example"]).allows o = true ↔
      o ∈ ["https://a.example"])) ∧
    (AllowOrigin.list ["https://a.example"]).allows "https://b.example" = false ∧
    (AllowOrigin.any.allows "https://b.example" = true) :=
  ⟨by rfl,
    fun o => ((start_server_cors_policy [SocketAddr.mk "127.0.0.1" 9933]
      (some ["https://a.example"]) (Config.mk none none none none)
      (RpcModule.mk [("system_health", idHandler)]) none true
      ⟨15728640, 15728640, 100, 1024, AllowOrigin.list ["https://a.example"],
        AllowHosts.Only ["localhost:9933", "127.0.0.1:9933"],
        RpcModule.mk [("system_health", idHandler),
          ("rpc_methods", introspectionHandler ["system_health"])],
        IdProvider.randomString 16⟩ (by rfl)).2
      ["https://a.example"] rfl).2 o,
    by decide, by decide⟩

end RpcServers
